import Mathlib

/-!
Verification of the LabJack stream controller (`labjack_stream_control.py`).

The Python source is shallowly embedded below.  Machine floats are idealised
as `ℚ` (for the control-flow and integer-derived quantities) or `ℝ` (for the
sine waveform samples).  Python `int()` (truncation toward zero) is `pyInt`,
Python `round()` (banker's rounding, round-half-to-even) is `pyRound`.
Device registers are an inductive `Reg` type; register writes are recorded as
an ordered trace, and "reading a register back" returns the last value written
to it.  Fallible hardware operations return `Except`.
-/

/-- Python `int()` on a rational: truncation toward zero. -/
def pyInt (q : ℚ) : ℤ := if 0 ≤ q then ⌊q⌋ else ⌈q⌉

/-- Python `round()` on a rational: round half to even (banker's rounding). -/
def pyRound (q : ℚ) : ℤ :=
  if q - ⌊q⌋ < 1/2 then ⌊q⌋
  else if 1/2 < q - ⌊q⌋ then ⌊q⌋ + 1
  else if ⌊q⌋ % 2 = 0 then ⌊q⌋ else ⌊q⌋ + 1

/-- Module constant `STREAM_SCAN_RATE_HZ = 4000.0`. -/
def STREAM_SCAN_RATE_HZ : ℚ := 4000

/-- Module constant `SCANS_PER_READ = 400`. -/
def SCANS_PER_READ : ℕ := 400

/-- Module constant `LED_FREQUENCY_HZ = 250.0`. -/
def LED_FREQUENCY_HZ : ℚ := 250

/-- Module constant `LED_IDLE_V = 0.0`. -/
def LED_IDLE_V : ℚ := 0

/-- Module constant `FIO0_MASK_ALLOW = 0xFE`: mask that allows only FIO0 to change. -/
def FIO0_MASK_ALLOW : ℕ := 0xFE

/-- `high_word = (FIO0_MASK_ALLOW << 8) | 0x01` from `prepare_ttl_waveform`. -/
def ttlHighWord : ℕ := (FIO0_MASK_ALLOW <<< 8) ||| 0x01

/-- `low_word = (FIO0_MASK_ALLOW << 8)` from `prepare_ttl_waveform`. -/
def ttlLowWord : ℕ := FIO0_MASK_ALLOW <<< 8

/-- The port word written by `_set_fio0_state(high)`:
`(FIO0_MASK_ALLOW << 8) | (0x01 if high else 0x00)`. -/
def setFio0Value (high : Bool) : ℕ :=
  (FIO0_MASK_ALLOW <<< 8) ||| (if high then 0x01 else 0x00)

/-- `samples_per_period = max(1, int(round(STREAM_SCAN_RATE_HZ / max(rate_hz, 0.1))))`
from `prepare_ttl_waveform`. -/
def sppTtl (rate : ℚ) : ℕ :=
  (max 1 (pyRound (STREAM_SCAN_RATE_HZ / max rate (1/10)))).toNat

/-- `high_samples = min(max(1, int(round(pulse_width_s * STREAM_SCAN_RATE_HZ))), samples_per_period)`
from `prepare_ttl_waveform`. -/
def highSamplesTtl (rate width : ℚ) : ℕ :=
  min (max 1 (pyRound (width * STREAM_SCAN_RATE_HZ))).toNat (sppTtl rate)

/-- The three controller fields set by `prepare_ttl_waveform`:
`_ttl_waveform`, `_ttl_duration_s`, `_ttl_num_pulses`. -/
structure TtlState where
  waveform : Option (List ℕ)
  duration : ℚ
  numPulses : ℤ
deriving DecidableEq, Repr

/-- `prepare_ttl_waveform(num_pulses, rate_hz, pulse_width_s)`: builds one period of
the hardware-timed TTL pattern (`high_samples` copies of `high_word` followed by
`samples_per_period - high_samples` copies of `low_word`), or clears the state
when `num_pulses <= 0`. -/
def prepare_ttl_waveform (numPulses : ℤ) (rate width : ℚ) : TtlState :=
  if numPulses ≤ 0 then ⟨none, 0, 0⟩
  else
    ⟨some (List.replicate (highSamplesTtl rate width) ttlHighWord ++
           List.replicate (sppTtl rate - highSamplesTtl rate width) ttlLowWord),
     (numPulses : ℚ) / max rate (1/10), numPulses⟩

-- -------------------------------------------------------------------------
-- Concrete evaluation helpers (rational arithmetic does not kernel-reduce,
-- so the floor/round values used by the concrete claims are proved here).
-- -------------------------------------------------------------------------

theorem floor_4000_div_30 : ⌊(4000 : ℚ)/30⌋ = 133 :=
  Int.floor_eq_iff.mpr (by norm_num)

theorem pyRound_4000_div_30 : pyRound ((4000 : ℚ)/30) = 133 := by
  simp only [pyRound, floor_4000_div_30]
  rw [if_pos (by norm_num)]

theorem pyRound_four : pyRound ((1/1000 : ℚ) * 4000) = 4 := by
  have hf : ⌊(1/1000 : ℚ) * 4000⌋ = 4 := Int.floor_eq_iff.mpr (by norm_num)
  simp only [pyRound, hf]
  rw [if_pos (by norm_num)]

theorem sppTtl_30 : sppTtl 30 = 133 := by
  have hmax : max (30 : ℚ) (1/10) = 30 := max_eq_left (by norm_num)
  simp only [sppTtl, STREAM_SCAN_RATE_HZ, hmax, pyRound_4000_div_30]
  decide

theorem highSamplesTtl_30 : highSamplesTtl 30 (1/1000) = 4 := by
  simp only [highSamplesTtl, STREAM_SCAN_RATE_HZ, pyRound_four, sppTtl_30]
  decide

theorem prepare_ttl_300_waveform :
    (prepare_ttl_waveform 300 30 (1/1000)).waveform =
      some (List.replicate 4 ttlHighWord ++ List.replicate 129 ttlLowWord) := by
  simp only [prepare_ttl_waveform, sppTtl_30, highSamplesTtl_30]
  norm_num

theorem prepare_ttl_300_duration :
    (prepare_ttl_waveform 300 30 (1/1000)).duration = 10 := by
  have hmax : max (30 : ℚ) (1/10) = 30 := max_eq_left (by norm_num)
  simp only [prepare_ttl_waveform, hmax]
  norm_num

/-- C5: for `pulse_count=300, pulse_rate_hz=30, pulse_width_s=0.001,
scan_rate_hz=4000` the generator derives `samples_per_period = 133` and
`high_samples = 4`, stores a 133-sample waveform whose first 4 port words are
the FIO0-high word and whose remaining 129 port words are the FIO0-low word,
and exposes a duration of 10 seconds. -/
theorem ttl_concrete_300_30 :
    sppTtl 30 = 133 ∧
    highSamplesTtl 30 (1/1000) = 4 ∧
    (∃ wf, (prepare_ttl_waveform 300 30 (1/1000)).waveform = some wf ∧
      wf.length = 133 ∧
      wf.take 4 = List.replicate 4 (setFio0Value true) ∧
      wf.drop 4 = List.replicate 129 (setFio0Value false)) ∧
    (prepare_ttl_waveform 300 30 (1/1000)).duration = 10 := by
  refine ⟨sppTtl_30, highSamplesTtl_30, ⟨_, prepare_ttl_300_waveform, ?_, ?_, ?_⟩,
    prepare_ttl_300_duration⟩
  · simp
  · rw [List.take_append_of_le_length (by simp), List.take_replicate,
      show ttlHighWord = setFio0Value true from by decide]
    simp
  · rw [List.drop_append_of_le_length (by simp), List.drop_replicate,
      show ttlLowWord = setFio0Value false from by decide]
    simp

-- -------------------------------------------------------------------------
-- Device registers and the stream-out buffer loader (`_configure_stream_out`)
-- -------------------------------------------------------------------------

/-- The named device registers the controller writes, one constructor per
register-name pattern of the source (`STREAM_OUT{i}_ENABLE`, `DAC0`, ...). -/
inductive Reg where
  | streamOutEnable (index : ℕ)
  | streamOutTarget (index : ℕ)
  | streamOutBufferSize (index : ℕ)
  | streamOutLoopSize (index : ℕ)
  | streamOutBufferF32 (index : ℕ)
  | streamOutBufferU16 (index : ℕ)
  | streamOutSetLoop (index : ℕ)
  | dac0
  | fioState
  | fioDirection
deriving DecidableEq, Repr

/-- Reading a register back from a write trace: the value most recently
written to it, if any. -/
def readBack (trace : List (Reg × ℚ)) (r : Reg) : Option ℚ :=
  ((trace.filter (fun p => decide (p.1 = r))).getLast?).map Prod.snd

/-- Fuel-driven computation of `ceil(log2 n)`; `ceilLog2Aux fuel n` is correct
whenever `n ≤ fuel`. -/
def ceilLog2Aux : ℕ → ℕ → ℕ
  | 0, _ => 0
  | fuel + 1, n => if n ≤ 1 then 0 else ceilLog2Aux fuel ((n + 1) / 2) + 1

/-- `ceil(log2 n)` (for `n ≥ 1`): the least `k` with `n ≤ 2 ^ k`. -/
def ceilLog2 (n : ℕ) : ℕ := ceilLog2Aux n n

/-- The buffer size chosen by `_configure_stream_out`:
`min(max(512, 2 ** ceil(log2(max(1, len(waveform))))), 8192)`. -/
def bufferSize (waveformLen : ℕ) : ℕ :=
  min 8192 (max 512 (2 ^ ceilLog2 (max 1 waveformLen)))

/-- The `for attempt in range(3)` retry loop around one buffer-register write.
`fail attempt` says whether the hardware write raises on that attempt.  On
success it reports how many attempts were used; at `attempt == 2` the error is
re-raised. -/
def writeRetryGo (fail : ℕ → Bool) : ℕ → ℕ → Except Unit ℕ
  | _, 0 => .error ()
  | attempt, fuel + 1 =>
    if fail attempt then
      if attempt = 2 then .error ()
      else writeRetryGo fail (attempt + 1) fuel
    else .ok (attempt + 1)

/-- One sample write with the 3-attempt retry policy of `_configure_stream_out`. -/
def writeSample (fail : ℕ → Bool) : Except Unit ℕ := writeRetryGo fail 0 3

/-- The per-sample loop of `_configure_stream_out`: writes every waveform value
to the buffer register in order, each with the 3-attempt retry.  Returns the
write trace and the attempts used per sample; the first exhausted sample
propagates its hardware error.  `fail j a` says whether sample `j`'s attempt
`a` raises. -/
def writeBufferGo (bufReg : Reg) (fail : ℕ → ℕ → Bool) :
    List ℚ → ℕ → Except Unit (List (Reg × ℚ) × List ℕ)
  | [], _ => .ok ([], [])
  | v :: rest, j =>
    match writeSample (fail j) with
    | .error e => .error e
    | .ok k =>
      match writeBufferGo bufReg fail rest (j + 1) with
      | .error e => .error e
      | .ok (tr, ks) => .ok ((bufReg, v) :: tr, k :: ks)

/-- `_configure_stream_out(index, target_name, waveform, loop, value_type)`:
disable the channel, set target and buffer size, enable, write the loop size
(`len(waveform)`), push every sample through the retry loop, and arm
`SET_LOOP` when `loop` is true.  The result is the ordered register-write
trace (or the propagated hardware error). -/
def configureStreamOut (index : ℕ) (targetAddr : ℚ) (waveform : List ℚ)
    (loop : Bool) (useF32 : Bool) (fail : ℕ → ℕ → Bool) :
    Except Unit (List (Reg × ℚ)) :=
  let bufReg := if useF32 then Reg.streamOutBufferF32 index else Reg.streamOutBufferU16 index
  match writeBufferGo bufReg fail waveform 0 with
  | .error e => .error e
  | .ok (tr, _) =>
    .ok ([(Reg.streamOutEnable index, 0), (Reg.streamOutTarget index, targetAddr),
          (Reg.streamOutBufferSize index, (bufferSize waveform.length : ℚ)),
          (Reg.streamOutEnable index, 1),
          (Reg.streamOutLoopSize index, (waveform.length : ℚ))] ++ tr ++
         (if loop then [(Reg.streamOutSetLoop index, 1)] else []))

/-- `configure_ttl_stream_out`: loads the stored TTL waveform into STREAM_OUT1
(`u16` buffer, loop replay armed), or does nothing when no waveform is stored. -/
def configure_ttl_stream_out (ts : TtlState) (targetAddr : ℚ) (fail : ℕ → ℕ → Bool) :
    Except Unit (List (Reg × ℚ)) :=
  match ts.waveform with
  | none => .ok []
  | some wf =>
    if wf = [] then .ok []
    else configureStreamOut 1 targetAddr (wf.map (fun v => (v : ℚ))) true false fail

-- -------------------------------------------------------------------------
-- Helper lemmas about the loader, the retry loop and the buffer size
-- -------------------------------------------------------------------------

theorem readBack_append_last (l : List (Reg × ℚ)) (r : Reg) (v : ℚ) :
    readBack (l ++ [(r, v)]) r = some v := by
  simp [readBack, List.filter_append, List.getLast?_concat]

theorem writeSample_nofail : writeSample (fun _ => false) = .ok 1 := rfl

theorem writeSample_error_iff (fail : ℕ → Bool) :
    writeSample fail = .error () ↔
      (fail 0 = true ∧ fail 1 = true ∧ fail 2 = true) := by
  cases h0 : fail 0 <;> cases h1 : fail 1 <;> cases h2 : fail 2 <;>
    simp [writeSample, writeRetryGo, h0, h1, h2]

theorem writeSample_ok (fail : ℕ → Bool) (k : ℕ) (h : writeSample fail = .ok k) :
    1 ≤ k ∧ k ≤ 3 ∧ fail (k - 1) = false ∧ ∀ a, a < k - 1 → fail a = true := by
  cases h0 : fail 0 with
  | false =>
    simp [writeSample, writeRetryGo, h0] at h
    subst h
    exact ⟨by norm_num, by norm_num, by simpa using h0, fun a ha => absurd ha (by omega)⟩
  | true =>
    cases h1 : fail 1 with
    | false =>
      simp [writeSample, writeRetryGo, h0, h1] at h
      subst h
      refine ⟨by norm_num, by norm_num, by simpa using h1, ?_⟩
      intro a ha
      interval_cases a
      exact h0
    | true =>
      cases h2 : fail 2 with
      | false =>
        simp [writeSample, writeRetryGo, h0, h1, h2] at h
        subst h
        refine ⟨by norm_num, by norm_num, by simpa using h2, ?_⟩
        intro a ha
        interval_cases a
        · exact h0
        · exact h1
      | true =>
        simp [writeSample, writeRetryGo, h0, h1, h2] at h

theorem writeBufferGo_ok_regs (bufReg : Reg) (fail : ℕ → ℕ → Bool) (vals : List ℚ)
    (j : ℕ) (tr : List (Reg × ℚ)) (ks : List ℕ)
    (h : writeBufferGo bufReg fail vals j = .ok (tr, ks)) :
    ∀ p ∈ tr, p.1 = bufReg := by
  induction vals generalizing j tr ks with
  | nil =>
    simp only [writeBufferGo] at h
    cases h
    simp
  | cons v rest ih =>
    simp only [writeBufferGo] at h
    cases hs : writeSample (fail j) with
    | error e => rw [hs] at h; cases h
    | ok k =>
      rw [hs] at h
      cases hrec : writeBufferGo bufReg fail rest (j + 1) with
      | error e => rw [hrec] at h; cases h
      | ok pr =>
        obtain ⟨tr1, ks1⟩ := pr
        rw [hrec] at h
        cases h
        intro p hp
        cases hp with
        | head => rfl
        | tail _ hp => exact ih (j + 1) tr1 ks1 hrec p hp

theorem writeBufferGo_ok_attempts (bufReg : Reg) (fail : ℕ → ℕ → Bool) (vals : List ℚ)
    (j : ℕ) (tr : List (Reg × ℚ)) (ks : List ℕ)
    (h : writeBufferGo bufReg fail vals j = .ok (tr, ks)) :
    ∀ k ∈ ks, 1 ≤ k ∧ k ≤ 3 := by
  induction vals generalizing j tr ks with
  | nil =>
    simp only [writeBufferGo] at h
    cases h
    simp
  | cons v rest ih =>
    simp only [writeBufferGo] at h
    cases hs : writeSample (fail j) with
    | error e => rw [hs] at h; cases h
    | ok k =>
      rw [hs] at h
      cases hrec : writeBufferGo bufReg fail rest (j + 1) with
      | error e => rw [hrec] at h; cases h
      | ok pr =>
        obtain ⟨tr1, ks1⟩ := pr
        rw [hrec] at h
        cases h
        intro k2 hk2
        cases hk2 with
        | head =>
          obtain ⟨h1, h2, -, -⟩ := writeSample_ok (fail j) k hs
          exact ⟨h1, h2⟩
        | tail _ hk2 => exact ih (j + 1) tr1 ks1 hrec k2 hk2

theorem writeBufferGo_error (bufReg : Reg) (fail : ℕ → ℕ → Bool) (vals : List ℚ) (j : ℕ)
    (h : writeBufferGo bufReg fail vals j = .error ()) :
    ∃ m, m < vals.length ∧
      (fail (j + m) 0 = true ∧ fail (j + m) 1 = true ∧ fail (j + m) 2 = true) ∧
      ∀ m2, m2 < m → ∃ k, writeSample (fail (j + m2)) = .ok k := by
  induction vals generalizing j with
  | nil => simp [writeBufferGo] at h
  | cons v rest ih =>
    simp only [writeBufferGo] at h
    cases hs : writeSample (fail j) with
    | error e =>
      refine ⟨0, by simp, ?_, by omega⟩
      have := (writeSample_error_iff (fail j)).mp (by simpa using hs)
      simpa using this
    | ok k =>
      rw [hs] at h
      cases hrec : writeBufferGo bufReg fail rest (j + 1) with
      | error e =>
        obtain ⟨m, hm, hfails, hearlier⟩ := ih (j + 1) (by simpa using hrec)
        refine ⟨m + 1, by simpa using Nat.succ_lt_succ hm, ?_, ?_⟩
        · have : j + 1 + m = j + (m + 1) := by omega
          rwa [this] at hfails
        · intro m2 hm2
          cases m2 with
          | zero => exact ⟨k, by simpa using hs⟩
          | succ m3 =>
            have h3 : m3 < m := by omega
            obtain ⟨k2, hk2⟩ := hearlier m3 h3
            refine ⟨k2, ?_⟩
            have : j + 1 + m3 = j + (m3 + 1) := by omega
            rwa [this] at hk2
      | ok pr =>
        obtain ⟨tr1, ks1⟩ := pr
        rw [hrec] at h
        cases h

theorem writeBufferGo_nofail (bufReg : Reg) (vals : List ℚ) (j : ℕ) :
    ∃ tr ks, writeBufferGo bufReg (fun _ _ => false) vals j = .ok (tr, ks) := by
  induction vals generalizing j with
  | nil => exact ⟨[], [], rfl⟩
  | cons v rest ih =>
    obtain ⟨tr, ks, hrec⟩ := ih (j + 1)
    exact ⟨(bufReg, v) :: tr, 1 :: ks, by simp [writeBufferGo, writeSample_nofail, hrec]⟩

theorem configureStreamOut_nofail (index : ℕ) (targetAddr : ℚ) (wf : List ℚ)
    (loop useF32 : Bool) :
    ∃ t, configureStreamOut index targetAddr wf loop useF32 (fun _ _ => false) = .ok t := by
  obtain ⟨tr, ks, h⟩ := writeBufferGo_nofail
    (if useF32 then Reg.streamOutBufferF32 index else Reg.streamOutBufferU16 index) wf 0
  simp only [configureStreamOut]
  rw [h]
  exact ⟨_, rfl⟩

theorem configureStreamOut_setLoop (index : ℕ) (targetAddr : ℚ) (wf : List ℚ)
    (useF32 : Bool) (fail : ℕ → ℕ → Bool) (t : List (Reg × ℚ))
    (h : configureStreamOut index targetAddr wf true useF32 fail = .ok t) :
    readBack t (Reg.streamOutSetLoop index) = some 1 := by
  simp only [configureStreamOut] at h
  cases hb : writeBufferGo
      (if useF32 then Reg.streamOutBufferF32 index else Reg.streamOutBufferU16 index)
      fail wf 0 with
  | error e => rw [hb] at h; cases h
  | ok pr =>
    obtain ⟨tr, ks⟩ := pr
    rw [hb] at h
    cases h
    have h2 := readBack_append_last
      ([(Reg.streamOutEnable index, (0 : ℚ)), (Reg.streamOutTarget index, targetAddr),
        (Reg.streamOutBufferSize index, (bufferSize wf.length : ℚ)),
        (Reg.streamOutEnable index, 1),
        (Reg.streamOutLoopSize index, (wf.length : ℚ))] ++ tr)
      (Reg.streamOutSetLoop index) 1
    simpa [List.append_assoc] using h2

theorem ceilLog2Aux_ge (fuel : ℕ) : ∀ n, n ≤ fuel → n ≤ 2 ^ ceilLog2Aux fuel n := by
  induction fuel with
  | zero => intro n h; interval_cases n; simp [ceilLog2Aux]
  | succ fuel ih =>
    intro n h
    by_cases hn : n ≤ 1
    · simp only [ceilLog2Aux, if_pos hn, pow_zero]
      omega
    · have h2 : (n + 1) / 2 ≤ fuel := by omega
      have hrec := ih ((n + 1) / 2) h2
      calc n ≤ 2 * ((n + 1) / 2) := by omega
        _ ≤ 2 * 2 ^ ceilLog2Aux fuel ((n + 1) / 2) := by omega
        _ = 2 ^ (ceilLog2Aux fuel ((n + 1) / 2) + 1) := by rw [pow_succ]; ring
        _ = 2 ^ ceilLog2Aux (fuel + 1) n := by simp [ceilLog2Aux, hn]

theorem le_pow_ceilLog2 (n : ℕ) : n ≤ 2 ^ ceilLog2 n :=
  ceilLog2Aux_ge n n le_rfl

theorem bufferSize_pow_two (n : ℕ) : ∃ k, bufferSize n = 2 ^ k := by
  unfold bufferSize
  rcases le_total (2 ^ ceilLog2 (max 1 n)) 512 with h | h
  · exact ⟨9, by rw [max_eq_left h]; rfl⟩
  · rw [max_eq_right h]
    rcases le_total (2 ^ ceilLog2 (max 1 n)) 8192 with h2 | h2
    · exact ⟨ceilLog2 (max 1 n), min_eq_right h2⟩
    · exact ⟨13, by rw [min_eq_left h2]; norm_num⟩

theorem filter_none_of_ne (l : List (Reg × ℚ)) (r : Reg) (h : ∀ p ∈ l, p.1 ≠ r) :
    l.filter (fun p => decide (p.1 = r)) = [] :=
  List.filter_eq_nil_iff.mpr (fun p hp => by simp [h p hp])

-- -------------------------------------------------------------------------
-- Claim theorems on the buffer loader and the TTL waveform
-- -------------------------------------------------------------------------

/-- C3 (amended): for every waveform of length at most 8192, the buffer size
written by `_configure_stream_out` is a power of two, at least the waveform's
length, between 512 and 8192; and the loader never fails with a configuration
error for any waveform length (absent hardware write failures it always
succeeds — when the length exceeds 8192 the buffer size is clamped to 8192
and the load proceeds, see the counterexample). -/
theorem buffer_size_spec (n : ℕ) (h : n ≤ 8192) :
    n ≤ bufferSize n ∧ (∃ k, bufferSize n = 2 ^ k) ∧
    512 ≤ bufferSize n ∧ bufferSize n ≤ 8192 ∧
    ∀ (index : ℕ) (addr : ℚ) (wf : List ℚ) (loop useF32 : Bool),
      ∃ t, configureStreamOut index addr wf loop useF32 (fun _ _ => false) = .ok t := by
  refine ⟨?_, bufferSize_pow_two n, ?_, min_le_left _ _,
    fun index addr wf loop useF32 => configureStreamOut_nofail index addr wf loop useF32⟩
  · have h1 : n ≤ 2 ^ ceilLog2 (max 1 n) :=
      le_trans (le_max_right 1 n) (le_pow_ceilLog2 _)
    exact le_min h (le_trans h1 (le_max_right 512 _))
  · exact le_min (by norm_num) (le_max_left _ _)

/-- When the waveform is at least as long as the hardware maximum, the chosen
buffer size is clamped to exactly 8192. -/
theorem bufferSize_large (n : ℕ) (h : 8192 ≤ n) : bufferSize n = 8192 := by
  have h1 : (8192 : ℕ) ≤ 2 ^ ceilLog2 (max 1 n) :=
    le_trans h (le_trans (le_max_right 1 n) (le_pow_ceilLog2 _))
  exact min_eq_left (le_trans h1 (le_max_right 512 _))

/-- C3 counterexample: a waveform of length 10000 exceeds the hardware maximum
of 8192 words, yet the loader does not fail with a configuration error: it
clamps the buffer size to 8192 (smaller than the waveform) and proceeds to
load all samples successfully. -/
theorem buffer_clamp_cex :
    (List.replicate 10000 (0 : ℚ)).length = 10000 ∧
    bufferSize 10000 = 8192 ∧ 8192 < 10000 ∧
    ∃ t, configureStreamOut 0 0 (List.replicate 10000 (0 : ℚ)) true true
      (fun _ _ => false) = .ok t := by
  exact ⟨List.length_replicate 10000 0, bufferSize_large 10000 (by norm_num), by norm_num,
    configureStreamOut_nofail 0 0 (List.replicate 10000 (0 : ℚ)) true true⟩

theorem buffer_size_spec_witness :
    100 ≤ bufferSize 100 ∧ bufferSize 100 ≤ 8192 := by
  have h := buffer_size_spec 100 (by norm_num)
  exact ⟨h.1, h.2.2.2.1⟩

/-- C8: for every waveform accepted by the stream-out buffer loader, the
loop-size register is written with exactly the waveform's length, regardless
of the (power-of-two, possibly larger) buffer size chosen: reading the
loop-size register back after a successful load reports that length. -/
theorem loop_size_roundtrip (index : ℕ) (targetAddr : ℚ) (wf : List ℚ)
    (loop useF32 : Bool) (fail : ℕ → ℕ → Bool) (t : List (Reg × ℚ))
    (h : configureStreamOut index targetAddr wf loop useF32 fail = .ok t) :
    readBack t (Reg.streamOutLoopSize index) = some (wf.length : ℚ) := by
  simp only [configureStreamOut] at h
  cases hb : writeBufferGo
      (if useF32 then Reg.streamOutBufferF32 index else Reg.streamOutBufferU16 index)
      fail wf 0 with
  | error e => rw [hb] at h; cases h
  | ok pr =>
    obtain ⟨tr, ks⟩ := pr
    rw [hb] at h
    cases h
    have hregs := writeBufferGo_ok_regs _ _ _ _ _ _ hb
    have htr : tr.filter (fun p => decide (p.1 = Reg.streamOutLoopSize index)) = [] :=
      filter_none_of_ne tr _ (fun p hp => by rw [hregs p hp]; cases useF32 <;> simp)
    have htail : (if loop then [(Reg.streamOutSetLoop index, (1 : ℚ))] else []).filter
        (fun p => decide (p.1 = Reg.streamOutLoopSize index)) = [] := by
      cases loop <;> simp
    rw [readBack, List.filter_append, List.filter_append, htr, htail]
    simp

theorem loop_size_roundtrip_witness :
    ∃ t, configureStreamOut 0 5 [1, 2] true true (fun _ _ => false) = .ok t ∧
      readBack t (Reg.streamOutLoopSize 0) = some 2 := by
  obtain ⟨t, ht⟩ := configureStreamOut_nofail 0 5 [1, 2] true true
  refine ⟨t, ht, ?_⟩
  have h := loop_size_roundtrip 0 5 [1, 2] true true (fun _ _ => false) t ht
  simpa using h

/-- C9: during buffer loading each individual sample write is attempted at
most 3 times; a hardware error is propagated only when all 3 attempts for
some sample fail (and every earlier sample succeeded within its attempts),
and a success on any attempt moves on to the next sample. -/
theorem buffer_write_retry (fail : ℕ → ℕ → Bool) :
    (∀ j, writeSample (fail j) = .error () ↔
      (fail j 0 = true ∧ fail j 1 = true ∧ fail j 2 = true)) ∧
    (∀ j k, writeSample (fail j) = .ok k →
      1 ≤ k ∧ k ≤ 3 ∧ fail j (k - 1) = false ∧ ∀ a, a < k - 1 → fail j a = true) ∧
    (∀ (bufReg : Reg) (vals : List ℚ) (j : ℕ) tr ks,
      writeBufferGo bufReg fail vals j = .ok (tr, ks) → ∀ k ∈ ks, 1 ≤ k ∧ k ≤ 3) ∧
    (∀ (bufReg : Reg) (vals : List ℚ) (j : ℕ),
      writeBufferGo bufReg fail vals j = .error () →
      ∃ m, m < vals.length ∧
        (fail (j + m) 0 = true ∧ fail (j + m) 1 = true ∧ fail (j + m) 2 = true) ∧
        ∀ m2, m2 < m → ∃ k, writeSample (fail (j + m2)) = .ok k) :=
  ⟨fun j => writeSample_error_iff (fail j),
   fun j => writeSample_ok (fail j),
   fun bufReg vals j tr ks h => writeBufferGo_ok_attempts bufReg fail vals j tr ks h,
   fun bufReg vals j h => writeBufferGo_error bufReg fail vals j h⟩

theorem buffer_write_retry_witness :
    writeSample ((fun _ _ => true) 0) = .error () :=
  ((buffer_write_retry (fun _ _ => true)).1 0).mpr ⟨rfl, rfl, rfl⟩

/-- C6: every port word of the TTL pulse-train waveform packs the inhibit mask
`0xFE` in its upper byte (only FIO0 may change) together with the desired line
level in bit 0 of its lower byte, and the pulse-train words use exactly the
same encoding as the words written by the single-line state setter
`_set_fio0_state`. -/
theorem ttl_word_encoding (n : ℤ) (r w : ℚ) (wf : List ℕ)
    (hwf : (prepare_ttl_waveform n r w).waveform = some wf) :
    (ttlHighWord = setFio0Value true ∧ ttlLowWord = setFio0Value false) ∧
    ∀ word ∈ wf, word >>> 8 = FIO0_MASK_ALLOW ∧
      ((word = setFio0Value true ∧ word &&& 1 = 1) ∨
       (word = setFio0Value false ∧ word &&& 1 = 0)) := by
  refine ⟨⟨by decide, by decide⟩, ?_⟩
  intro word hword
  simp only [prepare_ttl_waveform] at hwf
  split at hwf
  · exact absurd hwf (by simp)
  · simp only [Option.some.injEq] at hwf
    subst hwf
    rcases List.mem_append.mp hword with hmem | hmem
    · rw [List.eq_of_mem_replicate hmem]
      exact ⟨by decide, Or.inl ⟨by decide, by decide⟩⟩
    · rw [List.eq_of_mem_replicate hmem]
      exact ⟨by decide, Or.inr ⟨by decide, by decide⟩⟩

theorem ttl_word_encoding_witness :
    ttlHighWord >>> 8 = FIO0_MASK_ALLOW ∧
    ((ttlHighWord = setFio0Value true ∧ ttlHighWord &&& 1 = 1) ∨
     (ttlHighWord = setFio0Value false ∧ ttlHighWord &&& 1 = 0)) :=
  (ttl_word_encoding 300 30 (1/1000) _ prepare_ttl_300_waveform).2 ttlHighWord
    (List.mem_append_left _ (List.mem_replicate.mpr ⟨by norm_num, rfl⟩))

/-- C10: for every positive pulse count the stored TTL waveform holds exactly
one pulse period — its length is `max(1, round(scan_rate / max(rate, 0.1)))`,
independent of the pulse count — and loading it arms the device's
loop-replay mode (the `SET_LOOP` register reads back as 1 after the load);
the pulse count determines only the exposed duration
`num_pulses / max(rate, 0.1)`. -/
theorem ttl_one_period (n : ℤ) (r w : ℚ) (hn : 0 < n) :
    ∃ wf, (prepare_ttl_waveform n r w).waveform = some wf ∧
      wf.length = (max 1 (pyRound (STREAM_SCAN_RATE_HZ / max r (1/10)))).toNat ∧
      (∀ m : ℤ, 0 < m → (prepare_ttl_waveform m r w).waveform = some wf) ∧
      (prepare_ttl_waveform n r w).duration = (n : ℚ) / max r (1/10) ∧
      ∀ targetAddr : ℚ, ∃ tr,
        configure_ttl_stream_out (prepare_ttl_waveform n r w) targetAddr
          (fun _ _ => false) = .ok tr ∧
        readBack tr (Reg.streamOutSetLoop 1) = some 1 := by
  have hn2 : ¬ n ≤ 0 := by omega
  have hspp1 : 1 ≤ sppTtl r := by
    simp [sppTtl]
  have hhs1 : 1 ≤ highSamplesTtl r w := by
    refine Nat.le_min.mpr ⟨?_, hspp1⟩
    simp
  have hhs2 : highSamplesTtl r w ≤ sppTtl r := min_le_right _ _
  simp only [prepare_ttl_waveform, if_neg hn2]
  refine ⟨_, rfl, ?_, ?_, trivial, ?_⟩
  · show _ = (max 1 (pyRound (STREAM_SCAN_RATE_HZ / max r (1/10)))).toNat
    rw [show (max 1 (pyRound (STREAM_SCAN_RATE_HZ / max r (1/10)))).toNat = sppTtl r
      from rfl]
    simp only [List.length_append, List.length_replicate]
    omega
  · intro m hm
    simp only [prepare_ttl_waveform, if_neg (show ¬ m ≤ 0 by omega)]
  · intro targetAddr
    have hne : List.replicate (highSamplesTtl r w) ttlHighWord ++
        List.replicate (sppTtl r - highSamplesTtl r w) ttlLowWord ≠ [] := by
      intro hE
      have hlen := congrArg List.length hE
      simp only [List.length_append, List.length_replicate, List.length_nil] at hlen
      omega
    simp only [configure_ttl_stream_out, if_neg hne]
    obtain ⟨t, ht⟩ := configureStreamOut_nofail 1 targetAddr
      ((List.replicate (highSamplesTtl r w) ttlHighWord ++
        List.replicate (sppTtl r - highSamplesTtl r w) ttlLowWord).map
          (fun v => (v : ℚ))) true false
    exact ⟨t, ht, configureStreamOut_setLoop 1 targetAddr _ false (fun _ _ => false) t ht⟩

theorem ttl_one_period_witness :
    ∃ wf, (prepare_ttl_waveform 300 30 (1/1000)).waveform = some wf ∧
      wf.length = (max 1 (pyRound (STREAM_SCAN_RATE_HZ / max 30 (1/10)))).toNat ∧
      (∀ m : ℤ, 0 < m → (prepare_ttl_waveform m 30 (1/1000)).waveform = some wf) ∧
      (prepare_ttl_waveform 300 30 (1/1000)).duration = (300 : ℚ) / max 30 (1/10) ∧
      ∀ targetAddr : ℚ, ∃ tr,
        configure_ttl_stream_out (prepare_ttl_waveform 300 30 (1/1000)) targetAddr
          (fun _ _ => false) = .ok tr ∧
        readBack tr (Reg.streamOutSetLoop 1) = some 1 :=
  ttl_one_period 300 30 (1/1000) (by norm_num)

-- -------------------------------------------------------------------------
-- Stream reading (`read_stream_chunk`) and the session stop (`stop_stream`)
-- -------------------------------------------------------------------------

/-- Errors a stream read could surface: a propagated LJM library error, or the
spec's `BacklogExceededError` for a read loop falling behind. -/
inductive StreamError where
  | ljmError (code : ℤ)
  | backlogExceeded
deriving DecidableEq, Repr

/-- `read_stream_chunk`: unpacks the `(data, device_backlog, ljm_backlog)`
triple returned by the stream-read primitive (`ljm.eStreamRead`) — or
propagates its error — and returns the data together with the stored actual
scan rate.  The two backlog values are bound and then discarded. -/
def read_stream_chunk (streamRead : Except StreamError (List ℚ × ℕ × ℕ))
    (actualScanRate : ℚ) : Except StreamError (List ℚ × ℚ) :=
  match streamRead with
  | .error e => .error e
  | .ok (data, _deviceBacklog, _ljmBacklog) => .ok (data, actualScanRate)

/-- Follows the spec's words (§8 "Backlog monotonicity") rather than the
source, for comparison with `read_stream_chunk`: raise `backlogExceeded` as
soon as a reported backlog exceeds a configured threshold. -/
def readChunkSpec (threshold : ℕ) (streamRead : Except StreamError (List ℚ × ℕ × ℕ))
    (actualScanRate : ℚ) : Except StreamError (List ℚ × ℚ) :=
  match streamRead with
  | .error e => .error e
  | .ok (data, deviceBacklog, ljmBacklog) =>
    if threshold < deviceBacklog ∨ threshold < ljmBacklog then .error .backlogExceeded
    else .ok (data, actualScanRate)

/-- C2 (amended): the session controller never raises a backlog error — for
every reported backlog pair, however large, `read_stream_chunk` discards the
backlog values and returns the data with the stored actual scan rate.  No
backlog threshold exists in the code. -/
theorem read_chunk_never_raises_backlog (data : List ℚ)
    (deviceBacklog ljmBacklog : ℕ) (rate : ℚ) :
    read_stream_chunk (.ok (data, deviceBacklog, ljmBacklog)) rate = .ok (data, rate) :=
  rfl

/-- C2 counterexample: a read whose reported backlog (10^9 scans) exceeds any
plausible threshold still succeeds — the code does not raise, although the
spec-following controller at (an arbitrary) threshold 100 would. -/
theorem backlog_ignored_cex :
    read_stream_chunk (.ok ([], 1000000000, 1000000000)) 4000 = .ok ([], 4000) ∧
    readChunkSpec 100 (.ok ([], 1000000000, 1000000000)) 4000 =
      .error .backlogExceeded := by
  constructor
  · rfl
  · simp [readChunkSpec]

/-- Errors the LJM library can raise on `eStreamStop`. -/
inductive LJMErr where
  | streamNotRunning
  | other (code : ℤ)
deriving DecidableEq, Repr

/-- The controller state relevant to `stop_stream`: whether a hardware stream
is running, the stored TTL fields, and the register-write trace. -/
structure Ctrl where
  streamRunning : Bool
  ttl : TtlState
  trace : List (Reg × ℚ)
deriving DecidableEq, Repr

/-- `ljm.eWriteName`: record a register write (nominal, non-failing case). -/
def eWriteName (s : Ctrl) (r : Reg) (v : ℚ) : Ctrl :=
  { s with trace := s.trace ++ [(r, v)] }

/-- Modelled from the spec: the underlying stop primitive (`ljm.eStreamStop`,
an external LJM library call not part of this repository) reports an error
when nothing is running — the spec says stop "must not raise if the
underlying stop primitive reports 'nothing was running'", and the source
wraps its other `eStreamStop` call sites in try/except for exactly this. -/
def eStreamStop (s : Ctrl) : Except LJMErr Ctrl :=
  if s.streamRunning then .ok { s with streamRunning := false }
  else .error .streamNotRunning

/-- `_set_fio0_state(high)`: write the masked FIO0 port word. -/
def set_fio0_state (s : Ctrl) (high : Bool) : Ctrl :=
  eWriteName s Reg.fioState ((setFio0Value high : ℕ) : ℚ)

/-- `disable_ttl_stream`: best-effort disable of STREAM_OUT1 (its write error
is swallowed; nominal non-failing case modelled), drive FIO0 low, and clear
the stored TTL waveform and duration. -/
def disable_ttl_stream (s : Ctrl) : Ctrl :=
  let s1 := eWriteName s (Reg.streamOutEnable 1) 0
  let s2 := set_fio0_state s1 false
  { s2 with ttl := ⟨none, 0, s2.ttl.numPulses⟩ }

/-- `stop_stream`: disables the TTL stream, then calls the stop primitive with
no exception guard (so its error propagates and aborts the rest), then
disables STREAM_OUT0 and writes the DAC idle level. -/
def stop_stream (s : Ctrl) : Except LJMErr Ctrl :=
  let s1 := disable_ttl_stream s
  match eStreamStop s1 with
  | .error e => .error e
  | .ok s2 =>
    .ok (eWriteName (eWriteName s2 (Reg.streamOutEnable 0) 0) Reg.dac0 LED_IDLE_V)

/-- A freshly opened controller: `__init__` never starts a stream. -/
def ctrlFresh : Ctrl := ⟨false, ⟨none, 0, 0⟩, []⟩

/-- A controller with the hardware stream running. -/
def ctrlStreaming : Ctrl := ⟨true, ⟨none, 0, 0⟩, []⟩

/-- C1 evidence: calling `stop_stream` with no stream running raises the stop
primitive's error instead of completing — and because the error propagates
before the tail of the function, neither the STREAM_OUT0 disable nor the DAC
idle write is performed; in particular the second of two consecutive
`stop_stream` calls always raises. -/
theorem stop_stream_raises_when_idle :
    stop_stream ctrlFresh = .error LJMErr.streamNotRunning ∧
    ∃ c, stop_stream ctrlStreaming = .ok c ∧
      c.streamRunning = false ∧
      stop_stream c = .error LJMErr.streamNotRunning ∧
      readBack c.trace (Reg.streamOutEnable 0) = some 0 ∧
      readBack c.trace Reg.dac0 = some LED_IDLE_V := by
  refine ⟨rfl, _, rfl, rfl, rfl, ?_, ?_⟩ <;> rfl

-- -------------------------------------------------------------------------
-- Chunk logging (`log_chunk` inside `run_pulsed_stream`)
-- -------------------------------------------------------------------------

/-- `sample_period = 1.0 / controller._actual_scan_rate if controller._actual_scan_rate
else 0.0`: the reciprocal of the device-reported actual scan rate (the value
returned by `eStreamStart`), or 0 for a zero rate. -/
def samplePeriod (actualRate : ℚ) : ℚ := if actualRate = 0 then 0 else 1 / actualRate

/-- `log_chunk(data)`: truncate the chunk to `SCANS_PER_READ * scan_width`
samples (`scan_width = num_inputs`), then emit one row per scan —
`(sample_index, sample_index * sample_period, value per input channel in
input-list order)` — incrementing the running `sample_index` once per scan.
Returns the updated `sample_index` and the emitted rows (the CSV writes,
modelled as a list).  An empty chunk emits nothing. -/
def logChunk (numInputs sampleIndex : ℕ) (samplePer : ℚ) (data : List ℚ) :
    ℕ × List (ℕ × ℚ × List ℚ) :=
  if data = [] then (sampleIndex, [])
  else
    let d := data.take (SCANS_PER_READ * numInputs)
    let scans := d.length / numInputs
    (sampleIndex + scans,
     (List.range scans).map (fun scan =>
       (sampleIndex + scan, ((sampleIndex + scan : ℕ) : ℚ) * samplePer,
        (List.range numInputs).map (fun ch => d.getD (scan * numInputs + ch) 0))))

theorem mul_samplePeriod (x rate : ℚ) : x * samplePeriod rate = x / rate := by
  by_cases h : rate = 0
  · simp [samplePeriod, h]
  · simp [samplePeriod, h, div_eq_mul_inv]

/-- C7: every logged chunk is first truncated to `scans_per_read * num_inputs`
samples; each emitted row is `(scan_index, scan_index / actual_rate, one value
per input channel in input-list order)`, where the timestamp divides by the
device-reported actual scan rate (the `eStreamStart` return value, of which
`sample_period` is the reciprocal — never the requested rate); and the scan
index increments by one per scan across chunks. -/
theorem log_chunk_rows (numInputs idx : ℕ) (actualRate : ℚ) (data : List ℚ)
    (h : 0 < numInputs) :
    (logChunk numInputs idx (samplePeriod actualRate) data).1 =
      idx + (data.take (SCANS_PER_READ * numInputs)).length / numInputs ∧
    (logChunk numInputs idx (samplePeriod actualRate) data).2.length =
      (data.take (SCANS_PER_READ * numInputs)).length / numInputs ∧
    ∀ j, j < (data.take (SCANS_PER_READ * numInputs)).length / numInputs →
      (logChunk numInputs idx (samplePeriod actualRate) data).2[j]? =
        some (idx + j, ((idx + j : ℕ) : ℚ) / actualRate,
          (List.range numInputs).map
            (fun ch => (data.take (SCANS_PER_READ * numInputs)).getD (j * numInputs + ch) 0)) := by
  by_cases hd : data = []
  · subst hd
    refine ⟨by simp [logChunk], by simp [logChunk], ?_⟩
    intro j hj
    simp at hj
  · simp only [logChunk, if_neg hd]
    refine ⟨trivial, by simp, ?_⟩
    intro j hj
    rw [List.getElem?_map, List.getElem?_range hj]
    simp [mul_samplePeriod]

theorem log_chunk_rows_witness :
    (logChunk 3 0 (samplePeriod 4000) [1, 2, 3, 4, 5, 6]).2[1]? =
      some (1, (1 : ℚ) / 4000, [4, 5, 6]) := by
  have htake : ([1, 2, 3, 4, 5, 6] : List ℚ).take (SCANS_PER_READ * 3) =
      [1, 2, 3, 4, 5, 6] :=
    List.take_of_length_le (by norm_num [SCANS_PER_READ])
  have h := (log_chunk_rows 3 0 4000 [1, 2, 3, 4, 5, 6] (by norm_num)).2.2 1
    (by rw [htake]; norm_num)
  rw [htake] at h
  simpa [List.range_succ, List.getD] using h

-- -------------------------------------------------------------------------
-- The LED sine generator (`configure_led_stream_out`)
-- -------------------------------------------------------------------------

/-- The configuration error the sine generator raises when the scan rate is
too low for the requested frequency. -/
inductive CfgErr where
  | configurationError
deriving DecidableEq, Repr

/-- `samples_per_period = int(STREAM_SCAN_RATE_HZ / LED_FREQUENCY_HZ)` from
`configure_led_stream_out`, with the module constants lifted to parameters so
the quantified claim can be stated. -/
def sppLed (scanRate freq : ℚ) : ℤ := pyInt (scanRate / freq)

/-- The one-period sine sample list of `configure_led_stream_out`:
`offset + amplitude * sin(2*pi*i / samples_per_period)` for
`i in range(samples_per_period)` (the float sine idealised over `ℝ`). -/
noncomputable def ledWaveform (scanRate freq : ℚ) (amplitude offset : ℝ) : List ℝ :=
  (List.range (sppLed scanRate freq).toNat).map
    (fun (i : ℕ) => offset + amplitude *
      Real.sin ((2 * Real.pi * (i : ℝ)) / ((sppLed scanRate freq).toNat : ℝ)))

/-- `configure_led_stream_out` (module constants lifted to parameters): raises
when `samples_per_period < 2`, else loads the one-period sine waveform. -/
noncomputable def configure_led_stream_out (scanRate freq : ℚ) (amplitude offset : ℝ) :
    Except CfgErr (List ℝ) :=
  if sppLed scanRate freq < 2 then .error .configurationError
  else .ok (ledWaveform scanRate freq amplitude offset)

/-- C4 (amended): the sine generator fails exactly when the *truncated*
quotient `int(scan_rate / frequency)` is below 2 (the source truncates; it
does not round); otherwise the waveform has length `int(scan_rate/frequency)`
and its `i`-th sample is `offset + amplitude * sin(2*pi*i/samples_per_period)`
with `samples_per_period` the truncated quotient. -/
theorem led_stream_out_spec (scanRate freq : ℚ) (amplitude offset : ℝ) :
    (configure_led_stream_out scanRate freq amplitude offset =
        .error CfgErr.configurationError ↔ sppLed scanRate freq < 2) ∧
    ∀ wf, configure_led_stream_out scanRate freq amplitude offset = .ok wf →
      wf.length = (sppLed scanRate freq).toNat ∧
      ∀ i : ℕ, ∀ hi : i < wf.length,
        wf.get ⟨i, hi⟩ = offset + amplitude *
          Real.sin ((2 * Real.pi * i) / ((sppLed scanRate freq).toNat : ℝ)) := by
  by_cases hc : sppLed scanRate freq < 2
  · refine ⟨⟨fun _ => hc, fun _ => by simp [configure_led_stream_out, hc]⟩, ?_⟩
    intro wf hwf
    simp [configure_led_stream_out, hc] at hwf
  · constructor
    · constructor
      · intro he
        exact absurd he (by simp [configure_led_stream_out, hc])
      · intro h2
        exact absurd h2 hc
    · intro wf hwf
      simp only [configure_led_stream_out, if_neg hc, Except.ok.injEq] at hwf
      subst hwf
      constructor
      · simp only [ledWaveform]
        rw [List.length_map, List.length_range]
      · intro i hi
        rw [List.get_eq_getElem]
        simp only [ledWaveform, List.getElem_map, List.getElem_range]

theorem sppLed_4000_1500 : sppLed 4000 1500 = 2 := by
  have hf : ⌊(4000 : ℚ)/1500⌋ = 2 := Int.floor_eq_iff.mpr (by norm_num)
  simp only [sppLed, pyInt, hf]
  rw [if_pos (by norm_num)]

theorem pyRound_4000_div_1500 : pyRound ((4000 : ℚ)/1500) = 3 := by
  have hf : ⌊(4000 : ℚ)/1500⌋ = 2 := Int.floor_eq_iff.mpr (by norm_num)
  simp only [pyRound, hf]
  rw [if_neg (by norm_num), if_pos (by norm_num)]
  norm_num

/-- C4 counterexample: at scan rate 4000 and frequency 1500 the claim predicts
a waveform of length `round(4000/1500) = 3`, but the source truncates —
`int(4000/1500) = 2` — and produces a waveform of length 2 (and no
configuration error, since `2 < 2` fails). -/
theorem led_length_cex :
    (∃ wf, configure_led_stream_out 4000 1500 2 (5/2) = .ok wf ∧ wf.length = 2) ∧
    pyRound ((4000 : ℚ) / 1500) = 3 := by
  refine ⟨⟨ledWaveform 4000 1500 2 (5/2), ?_, ?_⟩, pyRound_4000_div_1500⟩
  · simp [configure_led_stream_out, sppLed_4000_1500]
  · simp only [ledWaveform]
    rw [List.length_map, List.length_range, sppLed_4000_1500]
    rfl

theorem led_stream_out_spec_witness :
    configure_led_stream_out 4000 2500 2 (5/2) = .error CfgErr.configurationError := by
  refine (led_stream_out_spec 4000 2500 2 (5/2)).1.mpr ?_
  have hf : ⌊(4000 : ℚ)/2500⌋ = 1 := Int.floor_eq_iff.mpr (by norm_num)
  simp only [sppLed, pyInt, hf]
  rw [if_pos (by norm_num)]
  norm_num
